import Mathlib

/-!
Verification of `src/bin/add_corncob_results.py` (geneshot).

Shallow embedding of the three core components of the script:
* the taxonomy ancestor walk (`Taxonomy.ancestors`, `anc_at_rank`),
* the long-to-wide reshape with FDR correction (`read_corncob_results`),
* the size-bounded batch writer (`write_corncob_by_annot` and the
  surrounding script body).

Machine floats of the source carry only exact tabular values here, so numeric
cells are modelled as `Rat`; a pandas `NaN` / absent cell is `Option.none`.
The external `statsmodels.multipletests` procedure is a function parameter.
-/

/-! ## Taxonomy (lines 57-103 of the source) -/
/-- One row of the `/ref/taxonomy` table, keyed by `tax_id`.
`parent` is total: the source normalises it with `fillna(0)` and a cast chain
to `str`.  `name` and `rank` cells may be missing (`NaN`), which the pandas
`Series.get` reports the same way as an absent id. -/
structure TaxonRecord where
  parent : String
  name : Option String
  rank : Option String
deriving DecidableEq, Repr

/-- The taxonomy table: association list from `tax_id` to its record
(ids are assumed unique, as in the HDF table index). -/
structure Taxonomy where
  table : List (String × TaxonRecord)
deriving DecidableEq, Repr

/-- `Taxonomy.parent`: `self.taxonomy_df["parent"].get(tax_id)` — `none` for an
unknown id. -/
def Taxonomy.parent (t : Taxonomy) (tax_id : String) : Option String :=
  (t.table.lookup tax_id).map TaxonRecord.parent

/-- `Taxonomy.name`: `none` both for an unknown id and a missing name cell. -/
def Taxonomy.name (t : Taxonomy) (tax_id : String) : Option String :=
  (t.table.lookup tax_id).bind TaxonRecord.name

/-- `Taxonomy.rank`: `none` both for an unknown id and a missing rank cell. -/
def Taxonomy.rank (t : Taxonomy) (tax_id : String) : Option String :=
  (t.table.lookup tax_id).bind TaxonRecord.rank

/-- `Taxonomy.ancestors(tax_id, a=[])`, with explicit fuel: the Python
recursion has no structural bound, so `none` models a recursion that has not
finished within `fuel` calls (in CPython: `RecursionError`). -/
def ancestorsFuel (t : Taxonomy) : Nat → String → List String → Option (List String)
  | 0, _, _ => none
  | fuel + 1, tax_id, a =>
    let a' := a ++ [tax_id]
    match t.parent tax_id with
    | none => some a'
    | some p => if p = tax_id then some a' else ancestorsFuel t fuel p a'

/-- The call `tax.ancestors(id)` terminates (returns at all). -/
def ancTerminates (t : Taxonomy) (tax_id : String) : Prop :=
  ∃ fuel, (ancestorsFuel t fuel tax_id []).isSome

/-- The recursion's stop test at one node: parent absent, or parent equal to
the node itself (the self-loop guard of lines 89-92). -/
def stopNow (t : Taxonomy) (tax_id : String) : Bool :=
  match t.parent tax_id with
  | none => true
  | some p => p == tax_id

/-- The parent chain starting at `tax_id` reaches a stop node within `n`
parent steps. -/
def stopsWithin (t : Taxonomy) : Nat → String → Bool
  | 0, tax_id => stopNow t tax_id
  | n + 1, tax_id =>
    stopNow t tax_id ||
      (match t.parent tax_id with
       | none => true
       | some p => stopsWithin t n p)

/-- A two-node parent cycle (`1 → 2 → 1`): malformed input on which the
source recursion never reaches its stop test. -/
def twoCycleTax : Taxonomy :=
  ⟨[("1", ⟨"2", none, none⟩), ("2", ⟨"1", none, none⟩)]⟩

/-- A table whose single node is its own parent: the malformed case the
self-loop guard is written for. -/
def selfLoopTax : Taxonomy :=
  ⟨[("5", ⟨"5", some "n5", some "species"⟩)]⟩

/-- The loop body of `anc_at_rank` (lines 122-124): return `tax.name(t)` for
the first chain entry `t` with `tax.rank(t) == rank`, else fall through. -/
def findRankName (t : Taxonomy) : List String → String → Option String
  | [], _ => none
  | x :: xs, r => if t.rank x = some r then t.name x else findRankName t xs r

/-- `anc_at_rank(tax_id, rank)` (lines 118-124).  The outer `Option` is fuel
exhaustion of the inner `ancestors` call; the inner `Option String` is the
Python return value (`None` = absence marker). -/
def anc_at_rank (t : Taxonomy) (fuel : Nat) (tax_id : Nat) (rank : String) :
    Option (Option String) :=
  if tax_id = 0 then some none
  else (ancestorsFuel t fuel (toString tax_id) []).map (fun c => findRankName t c rank)

/-- Spec-side reading of `ancestor_at_rank` for the non-sentinel case
(claim C10's wording): the *name* of the first entry of the chain whose rank
equals the requested rank, or the absence marker if no entry matches. -/
def specAncAtRank (t : Taxonomy) (chain : List String) (r : String) : Option String :=
  match chain.find? (fun x => t.rank x == some r) with
  | none => none
  | some x => t.name x

/-! ## Reshape and FDR correction (`read_corncob_results`, lines 16-53) -/
/-- One row of the long-format corncob CSV (columns `CAG`, `parameter`,
`type`, `value`). -/
structure StatRow where
  cag : Nat
  parameter : String
  type : String
  value : Rat
deriving DecidableEq, Repr

/-- Python `s.startswith("mu.")` on the character list of `s`. -/
def startsMu : List Char → Bool
  | 'm' :: 'u' :: '.' :: _ => true
  | _ => false

/-- The row selection of lines 26-29: keep rows whose parameter starts with
`"mu."`. -/
def selRows (rows : List StatRow) : List StatRow :=
  rows.filter (fun r => startsMu r.parameter.data)

/-- The index of the pivot: the distinct `(CAG, parameter)` pairs among the
selected rows (`pivot_table(index=["CAG","parameter"], ...)`; pandas sorts
this index, but no verified property depends on the row order). -/
def pivotKeys (rows : List StatRow) : List (Nat × String) :=
  (rows.map (fun r => (r.cag, r.parameter))).dedup

/-- The value columns of the pivot: the distinct `type` values among the
selected rows. -/
def pivotCols (rows : List StatRow) : List String :=
  (rows.map StatRow.type).dedup

/-- One cell of the pivot: pandas `pivot_table` aggregates duplicate
`(CAG, parameter, type)` entries with its default `aggfunc="mean"`, and
leaves the cell missing (`NaN`) when no entry exists. -/
def pivotValue (rows : List StatRow) (c : Nat) (p ty : String) : Option Rat :=
  let vs := (rows.filter
    (fun r => r.cag == c && r.parameter == p && r.type == ty)).map StatRow.value
  if vs.isEmpty then none else some (vs.sum / (vs.length : Rat))

/-- Python `s.replace("mu.", "")` on the character list: removes every
left-to-right non-overlapping occurrence of `"mu."`, not only a leading
prefix. -/
def replMuAux : List Char → List Char
  | 'm' :: 'u' :: '.' :: rest => replMuAux rest
  | c :: rest => c :: replMuAux rest
  | [] => []

/-- `"mu."` occurs somewhere in the character list. -/
def hasMu : List Char → Bool
  | 'm' :: 'u' :: '.' :: _ => true
  | _ :: rest => hasMu rest
  | [] => false

/-- The parameter rewrite of line 36: `lambda s: s.replace("mu.", "")`. -/
def replMu (s : String) : String :=
  ⟨replMuAux s.data⟩

/-- One row of the wide table produced by the reshape.  `q_value` is kept
column-wise in `WideTable` (the `assign` of line 43 adds a whole column), so
it does not appear here. -/
structure WideRow where
  cag : Nat
  parameter : String
  estimate : Option Rat
  std_error : Option Rat
  p_value : Option Rat
  wald : Option Rat
deriving DecidableEq, Repr

/-- Builds the wide row of one `(CAG, parameter)` pivot key.  `wald` is
`estimate / std_error` (line 49); a missing operand gives `NaN` and a zero
`std_error` gives `inf`, both modelled as `none`. -/
def mkWideRow (sel : List StatRow) (key : Nat × String) : WideRow :=
  { cag := key.1
    parameter := replMu key.2
    estimate := pivotValue sel key.1 key.2 "estimate"
    std_error := pivotValue sel key.1 key.2 "std_error"
    p_value := pivotValue sel key.1 key.2 "p_value"
    wald :=
      match pivotValue sel key.1 key.2 "estimate", pivotValue sel key.1 key.2 "std_error" with
      | some e, some s => if s = 0 then none else some (e / s)
      | _, _ => none }

/-- The wide result table: its rows, the value columns the pivot produced,
and the `q_value` column when one was assigned. -/
structure WideTable where
  rows : List WideRow
  cols : List String
  qvals : Option (List Rat)
deriving DecidableEq, Repr

/-- `read_corncob_results` (lines 16-53).  `mt` stands for the external
`statsmodels.multipletests` procedure (arguments: p-values, alpha, method;
result: the corrected q-values, `[1]` in the source).  `Except.error` models
an uncaught Python exception: the `KeyError` of line 48-49 when the pivot has
no `estimate` or no `std_error` column, or the `ValueError` of pandas
`assign` when the q-value column has the wrong length. -/
def read_corncob_results (mt : List Rat → Rat → String → List Rat)
    (fdr_method : String) (rows : List StatRow) : Except String WideTable :=
  let sel := selRows rows
  let cols := pivotCols sel
  let wrows := (pivotKeys sel).map (mkWideRow sel)
  let withQ : Except String (Option (List Rat)) :=
    if cols.contains "p_value" then
      let qs := mt (wrows.map (fun r => r.p_value.getD 1)) (0.2 : Rat) fdr_method
      if qs.length = wrows.length then Except.ok (some qs)
      else Except.error "ValueError: q_value column length mismatch"
    else Except.ok none
  match withQ with
  | Except.error e => Except.error e
  | Except.ok qv =>
    if cols.contains "estimate" then
      if cols.contains "std_error" then Except.ok ⟨wrows, cols, qv⟩
      else Except.error "KeyError: std_error"
    else Except.error "KeyError: estimate"

/-- Whether a call returned normally. -/
def exceptOk {ε α : Type} : Except ε α → Bool
  | Except.ok _ => true
  | Except.error _ => false

/-- Identity stand-in for the external `multipletests` procedure in concrete
witnesses (trivially length-preserving). -/
def mtId : List Rat → Rat → String → List Rat := fun l _ _ => l

/-- Three well-formed long rows for one `(CAG, parameter)` pair. -/
def rowsEx : List StatRow :=
  [⟨1, "mu.x", "estimate", 3⟩, ⟨1, "mu.x", "std_error", 1⟩, ⟨1, "mu.x", "p_value", 1⟩]

/-- The wide table `read_corncob_results` produces from `rowsEx`. -/
def wtEx : WideTable :=
  ⟨[⟨1, "x", some 3, some 1, some 1, some 3⟩],
   ["estimate", "std_error", "p_value"], some [1]⟩

/-- Long rows whose parameter carries the substring `"mu."` inside the
suffix as well as in the prefix position. -/
def rows7 : List StatRow :=
  [⟨1, "mu.amu.b", "estimate", 1⟩, ⟨1, "mu.amu.b", "std_error", 1⟩]

/-- The wide table `read_corncob_results` produces from `rows7`. -/
def wt7 : WideTable :=
  ⟨[⟨1, "ab", some 1, some 1, none, some 1⟩], ["estimate", "std_error"], none⟩

/-- The parameter column of a reshape result (empty on error). -/
def wideParams : Except String WideTable → List String
  | Except.ok wt => wt.rows.map WideRow.parameter
  | Except.error _ => []

/-- The single wide row of `wt7`. -/
def w7 : WideRow := ⟨1, "ab", some 1, some 1, none, some 1⟩

/-! ## Annotation-partitioned batch writer (`write_corncob_by_annot`,
lines 141-204, and the script body, lines 207-254) -/
/-- One output CSV row of the partitioned files.  Cells are optional because
the dummy file of lines 196-204 carries only three of the columns; rows
coming from `corncob_wide` have `cag` and `parameter` present and gain
`label` and `annotCol` (the source's `annotation` column) when tagged. -/
structure OutRow where
  cag : Option Nat
  parameter : Option String
  estimate : Option Rat
  std_error : Option Rat
  p_value : Option Rat
  q_value : Option Rat
  wald : Option Rat
  label : Option String
  annotCol : Option String
deriving DecidableEq, Repr

/-- One row of the `/annot/gene/all` table: a gene (CAG member) with its
present annotation cells, keyed by column name (an absent pair is a `NaN`
cell, which pandas `groupby` drops). -/
structure Gene where
  cag : Nat
  attrs : List (String × String)
deriving DecidableEq, Repr

/-- The annotation cell of one gene in one column. -/
def geneVal (g : Gene) (c : String) : Option String :=
  g.attrs.lookup c

/-- The distinct values of one annotation column, the group keys of
`gene_annot.groupby(col_name)` (order is deterministic within a run; pandas
sorts the keys, but no verified property depends on the order). -/
def colLabels (genes : List Gene) (c : String) : List String :=
  (genes.filterMap (fun g => geneVal g c)).dedup

/-- One entry of the `df` list comprehension (lines 147-157): the rows of
`corncob_wide` whose CAG carries the label, tagged with `label` and the
producing column. -/
def groupRows (corncob : List OutRow) (genes : List Gene) (c lbl : String) :
    List OutRow :=
  let cags := ((genes.filter (fun g => geneVal g c == some lbl)).map Gene.cag).dedup
  (corncob.filter (fun r =>
    match r.cag with
    | some x => cags.contains x
    | none => false)).map
    (fun r => { r with label := some lbl, annotCol := some c })

/-- The full `df` list (lines 147-157): column order outer, label order
inner. -/
def makeGroups (corncob : List OutRow) (genes : List Gene) (cols : List String) :
    List (List OutRow) :=
  (cols.map (fun c =>
    (colLabels genes c).map (fun lbl => groupRows corncob genes c lbl))).flatten

/-- One written output file (`fp_out.format(ix)`); its index is its position
in the output list. -/
structure Shard where
  rows : List OutRow
deriving DecidableEq, Repr

/-- The batching loop of lines 162-193.  First component: the shards written
(`pd.concat(batch)` flattens the accumulated groups); second component: the
log line arguments of the skip branch (line 171), the label of the skipped
group's first row.  `bsize` is `batch_size`; a shard is flushed when it
reaches 10,000 accumulated rows, a group of 50,000 or more rows is skipped,
and a non-empty final batch is always flushed. -/
def flushLoop : List (List OutRow) → Nat → List (List OutRow) →
    List Shard × List (Option String)
  | [], _, batch => (if 0 < batch.length then [⟨batch.flatten⟩] else [], [])
  | g :: gs, bsize, batch =>
    if 50000 ≤ g.length then
      let r := flushLoop gs bsize batch
      (r.1, (g.head?.bind OutRow.label) :: r.2)
    else if 10000 ≤ bsize + g.length then
      let r := flushLoop gs 0 []
      (⟨(batch ++ [g]).flatten⟩ :: r.1, r.2)
    else flushLoop gs (bsize + g.length) (batch ++ [g])

/-- The dummy row of lines 196-204 (and 246-254):
`{"estimate": [1], "p_value": [1], "parameter": ["dummy"]}`. -/
def dummyRow : OutRow :=
  ⟨none, some "dummy", some 1, none, some 1, none, none, none, none⟩

/-- `write_corncob_by_annot` (lines 141-204): batch the groups when any
exist, otherwise write the single dummy file. -/
def write_corncob_by_annot (corncob : List OutRow) (genes : List Gene)
    (cols : List String) : List Shard × List (Option String) :=
  let df := makeGroups corncob genes cols
  if 0 < df.length then flushLoop df 0 []
  else ([⟨[dummyRow]⟩], [])

/-- The `query("parameter != '(Intercept)'")` of lines 238-240. -/
def icFilter (corncob : List OutRow) : List OutRow :=
  corncob.filter (fun r => !(r.parameter == some "(Intercept)"))

/-- The script body's partitioning step (lines 236-254): with at least one
usable annotation column, partition the intercept-filtered wide table;
otherwise write the single dummy file. -/
def runPartitionStep (corncob : List OutRow) (genes : List Gene)
    (cols : List String) : List Shard × List (Option String) :=
  if 0 < cols.length then
    write_corncob_by_annot (icFilter corncob) genes cols
  else ([⟨[dummyRow]⟩], [])

/-- A wide-table row of feature 1 (parameter `"a"`). -/
def rowA : OutRow := ⟨some 1, some "a", none, none, none, none, none, none, none⟩

/-- A wide-table row of feature 2 (parameter `"b"`). -/
def rowB : OutRow := ⟨some 2, some "b", none, none, none, none, none, none, none⟩

/-- 6000 result rows of feature 1 followed by 6000 of feature 2. -/
def cnc1 : List OutRow := List.replicate 6000 rowA ++ List.replicate 6000 rowB

/-- Feature 1 carries genus `G`; feature 2 carries eggNOG value `E`. -/
def genes1 : List Gene := [⟨1, [("genus", "G")]⟩, ⟨2, [("eggNOG_desc", "E")]⟩]

/-- The genus group: 6000 tagged rows. -/
def g1t : List OutRow :=
  List.replicate 6000 { rowA with label := some "G", annotCol := some "genus" }

/-- The eggNOG group: 6000 tagged rows. -/
def g2t : List OutRow :=
  List.replicate 6000 { rowB with label := some "E", annotCol := some "eggNOG_desc" }

/-- A wide-table row of feature 7 (parameter `"a"`). -/
def rowC : OutRow := ⟨some 7, some "a", none, none, none, none, none, none, none⟩

/-- 50,000 result rows, all of the single feature 7. -/
def cnc2 : List OutRow := List.replicate 50000 rowC

/-- One gene: feature 7 carries genus `L`. -/
def genes2 : List Gene := [⟨7, [("genus", "L")]⟩]

/-- The genus-`L` group: 50,000 tagged rows of the single feature 7. -/
def bigGroup : List OutRow :=
  List.replicate 50000 { rowC with label := some "L", annotCol := some "genus" }

/-- A one-row result table used to instantiate the skip rule concretely. -/
def cncS : List OutRow := [rowA]

/-! ## Theorems -/

/-! ### Taxonomy lemmas -/
theorem ancestorsFuel_twoCycle (fuel : Nat) :
    ∀ a, (tid : String) → (tid = "1" ∨ tid = "2") →
      ancestorsFuel twoCycleTax fuel tid a = none := by
  induction fuel with
  | zero => intro a tid _; rfl
  | succ n ih =>
    intro a tid htid
    rcases htid with h | h <;> subst h <;>
      simp only [ancestorsFuel, twoCycleTax, Taxonomy.parent, List.lookup] <;>
      norm_num <;>
      exact ih _ _ (by simp)

theorem stopsWithin_ancestors_terminates (t : Taxonomy) :
    ∀ (n : Nat) (tax_id : String), stopsWithin t n tax_id = true →
      ∀ a, (ancestorsFuel t (n + 1) tax_id a).isSome = true := by
  intro n
  induction n with
  | zero =>
    intro tax_id h a
    simp only [stopsWithin, stopNow] at h
    simp only [ancestorsFuel]
    cases hp : t.parent tax_id with
    | none => simp
    | some p =>
      rw [hp] at h
      simp only [beq_iff_eq] at h
      simp [h]
  | succ n ih =>
    intro tax_id h a
    simp only [stopsWithin, stopNow, Bool.or_eq_true] at h
    simp only [ancestorsFuel]
    cases hp : t.parent tax_id with
    | none => simp
    | some p =>
      by_cases hpe : p = tax_id
      · simp [hpe]
      · simp only [if_neg hpe]
        rw [hp] at h
        rcases h with h | h
        · exact absurd (by simpa using h) hpe
        · exact ih p h _

theorem findRankName_eq_spec (t : Taxonomy) (r : String) :
    ∀ chain, findRankName t chain r = specAncAtRank t chain r := by
  intro chain
  induction chain with
  | nil => rfl
  | cons x xs ih =>
    simp only [findRankName, specAncAtRank, List.find?]
    by_cases h : t.rank x = some r
    · simp [h]
    · simp only [if_neg h]
      rw [ih]
      simp only [specAncAtRank]
      have : (t.rank x == some r) = false := by simpa using h
      simp [this]

theorem ancestorsFuel_head (t : Taxonomy) :
    ∀ (fuel : Nat) (tax_id : String) (a l : List String),
      ancestorsFuel t fuel tax_id a = some l → ∃ rest, l = a ++ tax_id :: rest := by
  intro fuel
  induction fuel with
  | zero => intro tax_id a l h; simp [ancestorsFuel] at h
  | succ n ih =>
    intro tax_id a l h
    simp only [ancestorsFuel] at h
    cases hp : t.parent tax_id with
    | none =>
      rw [hp] at h
      simp only [Option.some.injEq] at h
      exact ⟨[], by simp [← h]⟩
    | some p =>
      rw [hp] at h
      dsimp only at h
      by_cases hpe : p = tax_id
      · rw [if_pos hpe] at h
        simp only [Option.some.injEq] at h
        exact ⟨[], by simp [← h]⟩
      · rw [if_neg hpe] at h
        obtain ⟨rest, hrest⟩ := ih p (a ++ [tax_id]) l h
        exact ⟨p :: rest, by simp [hrest]⟩

/-- Claim C5 (corrected): `Taxonomy.ancestors` does *not* terminate on every
malformed table with parent cycles — on the two-node cycle `1 ↔ 2` the
recursion never finishes for any amount of fuel (in CPython it aborts with a
`RecursionError` instead of returning a chain). -/
theorem C5_counterexample : ¬ ancTerminates twoCycleTax "1" := by
  rintro ⟨fuel, h⟩
  rw [ancestorsFuel_twoCycle fuel [] "1" (Or.inl rfl)] at h
  simp at h

/-- Claim C5 (amended): `Taxonomy.ancestors(id)` terminates and returns a
finite chain whenever the parent chain from `id` reaches, in finitely many
steps, either an unknown id (absent parent) or a node that is its own parent
— in particular on any table whose only cycles are self-loops, such as a
node whose parent is itself.  Tables with a reachable cycle of length ≥ 2
make the recursion diverge instead. -/
theorem C5_ancestors_terminate (t : Taxonomy) (tax_id : String) (n : Nat)
    (h : stopsWithin t n tax_id = true) : ancTerminates t tax_id :=
  ⟨n + 1, stopsWithin_ancestors_terminates t n tax_id h []⟩

theorem C5_witness :
    stopsWithin selfLoopTax 0 "5" = true ∧ ancTerminates selfLoopTax "5" :=
  ⟨by decide, C5_ancestors_terminate selfLoopTax "5" 0 (by decide)⟩

/-- Claim C10 (confirmed): `anc_at_rank(id, rank)` returns the absence marker
immediately when `id` is the sentinel `0`; otherwise, whenever the inner
`ancestors` walk returns a chain, that chain starts at `id` itself and the
result is the name of the first chain entry whose rank equals the requested
rank — the absence marker when no entry matches (`specAncAtRank` is the
claim's wording of that selection). -/
theorem C10_anc_at_rank_correct (t : Taxonomy) (fuel : Nat) (tax_id : Nat) (r : String) :
    (tax_id = 0 → anc_at_rank t fuel tax_id r = some none) ∧
    (∀ chain, tax_id ≠ 0 → ancestorsFuel t fuel (toString tax_id) [] = some chain →
      chain.head? = some (toString tax_id) ∧
      anc_at_rank t fuel tax_id r = some (specAncAtRank t chain r)) := by
  constructor
  · intro h
    simp [anc_at_rank, h]
  · intro chain h0 hchain
    constructor
    · obtain ⟨rest, hrest⟩ := ancestorsFuel_head t fuel (toString tax_id) [] chain hchain
      simp [hrest]
    · simp [anc_at_rank, if_neg h0, hchain, findRankName_eq_spec]

theorem C10_witness :
    anc_at_rank selfLoopTax 1 0 "species" = some none ∧
    anc_at_rank selfLoopTax 1 5 "species" = some (specAncAtRank selfLoopTax ["5"] "species") :=
  ⟨(C10_anc_at_rank_correct selfLoopTax 1 0 "species").1 rfl,
   ((C10_anc_at_rank_correct selfLoopTax 1 5 "species").2 ["5"] (by decide) (by decide)).2⟩

/-! ### Reshaper lemmas -/
theorem pivotCols_contains_iff (sel : List StatRow) (ty : String) :
    (pivotCols sel).contains ty = true ↔ ∃ r ∈ sel, r.type = ty := by
  simp only [pivotCols, List.contains_iff_exists_mem_beq, beq_iff_eq]
  constructor
  · rintro ⟨x, hx, hxe⟩
    rw [List.mem_dedup, List.mem_map] at hx
    obtain ⟨r, hr, hre⟩ := hx
    exact ⟨r, hr, by rw [hre, hxe]⟩
  · rintro ⟨r, hr, hre⟩
    exact ⟨ty, by rw [List.mem_dedup, List.mem_map]; exact ⟨r, hr, hre⟩, rfl⟩

theorem read_eval (mt : List Rat → Rat → String → List Rat)
    (method : String) (rows : List StatRow)
    (hmt : ∀ l a m, (mt l a m).length = l.length) :
    read_corncob_results mt method rows =
      if (pivotCols (selRows rows)).contains "estimate" = true then
        if (pivotCols (selRows rows)).contains "std_error" = true then
          Except.ok
            ⟨(pivotKeys (selRows rows)).map (mkWideRow (selRows rows)),
             pivotCols (selRows rows),
             if (pivotCols (selRows rows)).contains "p_value" = true then
               some (mt (((pivotKeys (selRows rows)).map
                 (mkWideRow (selRows rows))).map (fun r => r.p_value.getD 1))
                 (0.2 : Rat) method)
             else none⟩
        else Except.error "KeyError: std_error"
      else Except.error "KeyError: estimate" := by
  by_cases hp : "p_value" ∈ pivotCols (selRows rows)
  · simp [read_corncob_results, hp, hmt]
  · simp [read_corncob_results, hp]

theorem read_ok_parts (mt : List Rat → Rat → String → List Rat)
    (method : String) (rows : List StatRow) (wt : WideTable)
    (hok : read_corncob_results mt method rows = Except.ok wt) :
    wt.rows = (pivotKeys (selRows rows)).map (mkWideRow (selRows rows)) ∧
    wt.cols = pivotCols (selRows rows) := by
  simp only [read_corncob_results] at hok
  split at hok
  · simp at hok
  · split at hok
    · split at hok
      · simp only [Except.ok.injEq] at hok
        rw [← hok]
        exact ⟨rfl, rfl⟩
      · simp at hok
    · simp at hok

theorem read_ok_iff (mt : List Rat → Rat → String → List Rat)
    (method : String) (rows : List StatRow)
    (hmt : ∀ l a m, (mt l a m).length = l.length) :
    exceptOk (read_corncob_results mt method rows) = true ↔
      ((pivotCols (selRows rows)).contains "estimate" = true ∧
       (pivotCols (selRows rows)).contains "std_error" = true) := by
  rw [read_eval mt method rows hmt]
  by_cases he : (pivotCols (selRows rows)).contains "estimate" = true
  · by_cases hs : (pivotCols (selRows rows)).contains "std_error" = true
    · rw [if_pos he, if_pos hs]
      exact iff_of_true rfl ⟨he, hs⟩
    · rw [if_pos he, if_neg hs]
      exact iff_of_false (by simp [exceptOk]) (fun h => hs h.2)
  · rw [if_neg he]
    exact iff_of_false (by simp [exceptOk]) (fun h => he h.1)

/-- Claim C4 (corrected): the reshape does *not* fail exactly when no row has
the `mu.` prefix, and the failure is not a caller-visible empty result.  It
raises an uncaught exception (`KeyError`, modelled as `Except.error`)
whenever the pivoted selection lacks an `estimate` or a `std_error` column.
Every input with no `mu.`-prefixed row fails this way, but so do inputs that
contain `mu.` rows without those two types, refuting the "if and only if". -/
theorem C4_reshape_failure (mt : List Rat → Rat → String → List Rat)
    (method : String) (rows : List StatRow)
    (hmt : ∀ l a m, (mt l a m).length = l.length) :
    (exceptOk (read_corncob_results mt method rows) = true ↔
      ((∃ r ∈ selRows rows, r.type = "estimate") ∧
       (∃ r ∈ selRows rows, r.type = "std_error"))) ∧
    (selRows rows = [] → exceptOk (read_corncob_results mt method rows) = false) := by
  have h := read_ok_iff mt method rows hmt
  rw [pivotCols_contains_iff, pivotCols_contains_iff] at h
  refine ⟨h, fun hsel => ?_⟩
  rw [Bool.eq_false_iff]
  intro hcon
  obtain ⟨⟨r, hr, _⟩, _⟩ := h.mp hcon
  rw [hsel] at hr
  exact absurd hr (List.not_mem_nil r)

theorem C4_witness :
    (exceptOk (read_corncob_results mtId "fdr_bh" rowsEx) = true ↔
      ((∃ r ∈ selRows rowsEx, r.type = "estimate") ∧
       (∃ r ∈ selRows rowsEx, r.type = "std_error"))) ∧
    (selRows rowsEx = [] → exceptOk (read_corncob_results mtId "fdr_bh" rowsEx) = false) :=
  C4_reshape_failure mtId "fdr_bh" rowsEx (fun _ _ _ => rfl)

/-- Claim C4 (counterexample): an input consisting of one `mu.`-prefixed row
of type `p_value` still makes `read_corncob_results` raise (a `KeyError` on
the absent `estimate` column), so "for every input containing at least one
such row it completes without a fatal error" is false. -/
theorem C4_counterexample :
    (startsMu "mu.x".data = true) ∧
    read_corncob_results mtId "fdr_bh" [⟨1, "mu.x", "p_value", 1/2⟩]
      = Except.error "KeyError: estimate" :=
  ⟨rfl, rfl⟩

/-- Evaluation of the reshape on the concrete input `rowsEx`. -/
theorem read_rowsEx : read_corncob_results mtId "fdr_bh" rowsEx = Except.ok wtEx := by
  rw [read_eval mtId "fdr_bh" rowsEx (fun _ _ _ => rfl)]
  rw [if_pos (by decide : (pivotCols (selRows rowsEx)).contains "estimate" = true)]
  rw [if_pos (by decide : (pivotCols (selRows rowsEx)).contains "std_error" = true)]
  rw [if_pos (by decide : (pivotCols (selRows rowsEx)).contains "p_value" = true)]
  rw [show pivotKeys (selRows rowsEx) = [(1, "mu.x")] from by decide]
  rw [show pivotCols (selRows rowsEx) = ["estimate", "std_error", "p_value"] from by decide]
  have hfE : (selRows rowsEx).filter
      (fun r => r.cag == 1 && r.parameter == "mu.x" && r.type == "estimate")
      = [⟨1, "mu.x", "estimate", 3⟩] := by decide
  have hfS : (selRows rowsEx).filter
      (fun r => r.cag == 1 && r.parameter == "mu.x" && r.type == "std_error")
      = [⟨1, "mu.x", "std_error", 1⟩] := by decide
  have hfP : (selRows rowsEx).filter
      (fun r => r.cag == 1 && r.parameter == "mu.x" && r.type == "p_value")
      = [⟨1, "mu.x", "p_value", 1⟩] := by decide
  simp [mkWideRow, mtId, pivotValue, hfE, hfS, hfP, wtEx, replMu, replMuAux]

/-- Claim C6 (confirmed): the reshaped table has a `q_value` column exactly
when the pivoted table has a `p_value` column; when present, the q-values
are the external FDR procedure applied, at target rate `0.2` and the
configured method, to the `p_value` column with missing entries filled by
`1`, one q-value per row in row order.  `hmt` states the procedure returns
one output per input, which the external `multipletests` guarantees. -/
theorem C6_qvalue_column (mt : List Rat → Rat → String → List Rat)
    (method : String) (rows : List StatRow) (wt : WideTable)
    (hmt : ∀ l a m, (mt l a m).length = l.length)
    (hok : read_corncob_results mt method rows = Except.ok wt) :
    (wt.qvals.isSome = true ↔ wt.cols.contains "p_value" = true) ∧
    (wt.cols.contains "p_value" = true →
      wt.qvals = some (mt (wt.rows.map (fun r => r.p_value.getD 1)) (0.2 : Rat) method)) ∧
    (∀ qs, wt.qvals = some qs → qs.length = wt.rows.length) := by
  rw [read_eval mt method rows hmt] at hok
  by_cases he : (pivotCols (selRows rows)).contains "estimate" = true
  · by_cases hs : (pivotCols (selRows rows)).contains "std_error" = true
    · rw [if_pos he, if_pos hs] at hok
      simp only [Except.ok.injEq] at hok
      subst hok
      by_cases hp : "p_value" ∈ pivotCols (selRows rows)
      · refine ⟨by simp [hp], fun _ => by simp [hp], fun qs hqs => ?_⟩
        simp [hp] at hqs
        rw [← hqs, hmt]
        simp
      · exact ⟨by simp [hp], fun hc => absurd (by simpa using hc) hp,
          fun qs hqs => by simp [hp] at hqs⟩
    · rw [if_pos he, if_neg hs] at hok
      exact absurd hok (by simp)
  · rw [if_neg he] at hok
    exact absurd hok (by simp)

theorem C6_witness :
    (wtEx.qvals.isSome = true ↔ wtEx.cols.contains "p_value" = true) ∧
    (wtEx.cols.contains "p_value" = true →
      wtEx.qvals = some (mtId (wtEx.rows.map (fun r => r.p_value.getD 1)) (0.2 : Rat) "fdr_bh")) ∧
    (∀ qs, wtEx.qvals = some qs → qs.length = wtEx.rows.length) :=
  C6_qvalue_column mtId "fdr_bh" rowsEx wtEx (fun _ _ _ => rfl) read_rowsEx

/-- Evaluation of the reshape on the concrete input `rows7`. -/
theorem read_rows7 : read_corncob_results mtId "fdr_bh" rows7 = Except.ok wt7 := by
  rw [read_eval mtId "fdr_bh" rows7 (fun _ _ _ => rfl)]
  rw [if_pos (by decide : (pivotCols (selRows rows7)).contains "estimate" = true)]
  rw [if_pos (by decide : (pivotCols (selRows rows7)).contains "std_error" = true)]
  rw [if_neg (by decide : ¬((pivotCols (selRows rows7)).contains "p_value" = true))]
  rw [show pivotKeys (selRows rows7) = [(1, "mu.amu.b")] from by decide]
  rw [show pivotCols (selRows rows7) = ["estimate", "std_error"] from by decide]
  have hfE : (selRows rows7).filter
      (fun r => r.cag == 1 && r.parameter == "mu.amu.b" && r.type == "estimate")
      = [⟨1, "mu.amu.b", "estimate", 1⟩] := by decide
  have hfS : (selRows rows7).filter
      (fun r => r.cag == 1 && r.parameter == "mu.amu.b" && r.type == "std_error")
      = [⟨1, "mu.amu.b", "std_error", 1⟩] := by decide
  have hfP : (selRows rows7).filter
      (fun r => r.cag == 1 && r.parameter == "mu.amu.b" && r.type == "p_value")
      = [] := by decide
  simp [mkWideRow, pivotValue, hfE, hfS, hfP, wt7, replMu, replMuAux]

theorem replMuAux_id : ∀ s, hasMu s = false → replMuAux s = s := by
  intro s
  induction s using replMuAux.induct <;> simp_all [replMuAux, hasMu]

theorem pivotKeys_sel_starts (rows : List StatRow) (key : Nat × String)
    (h : key ∈ pivotKeys (selRows rows)) : startsMu key.2.data = true := by
  rw [pivotKeys, List.mem_dedup, List.mem_map] at h
  obtain ⟨r, hr, hre⟩ := h
  rw [selRows, List.mem_filter] at hr
  rw [← hre]
  exact hr.2

/-- Claim C7 (corrected): the reshape rewrites each selected parameter with
`str.replace("mu.", "")`, which removes *every* left-to-right occurrence of
`"mu."`, not only the leading prefix.  Every reshaped parameter is
`replMu` of a selected `mu.`-prefixed input parameter, and only when the
suffix contains no further `"mu."` does this coincide with stripping the
prefix alone. -/
theorem C7_replace_all :
    (∀ (mt : List Rat → Rat → String → List Rat) (method : String)
       (rows : List StatRow) (wt : WideTable),
       read_corncob_results mt method rows = Except.ok wt →
       ∀ w ∈ wt.rows, ∃ p, (w.cag, p) ∈ pivotKeys (selRows rows) ∧
         startsMu p.data = true ∧ w.parameter = replMu p) ∧
    (∀ s : List Char, hasMu s = false → replMuAux ('m' :: 'u' :: '.' :: s) = s) := by
  constructor
  · intro mt method rows wt hok w hw
    obtain ⟨hrows, _⟩ := read_ok_parts mt method rows wt hok
    rw [hrows, List.mem_map] at hw
    obtain ⟨key, hkey, hmk⟩ := hw
    have hcag : w.cag = key.1 := by rw [← hmk]; simp [mkWideRow]
    refine ⟨key.2, ?_, pivotKeys_sel_starts rows key hkey, ?_⟩
    · rw [hcag]
      simpa using hkey
    · rw [← hmk]
      simp [mkWideRow]
  · intro s h
    have h1 : replMuAux ('m' :: 'u' :: '.' :: s) = replMuAux s := by
      simp [replMuAux]
    rw [h1, replMuAux_id s h]

/-- Claim C7 (counterexample): the input parameter `"mu.amu.b"` is reshaped
to `"ab"`, not to the prefix-stripped `"amu.b"` the claim requires. -/
theorem C7_counterexample :
    (∃ r ∈ rows7, r.parameter = "mu.amu.b") ∧
    wideParams (read_corncob_results mtId "fdr_bh" rows7) = ["ab"] ∧
    ("ab" : String) ≠ "amu.b" := by
  refine ⟨⟨⟨1, "mu.amu.b", "estimate", 1⟩, by simp [rows7], rfl⟩, ?_, by decide⟩
  rw [read_rows7]
  rfl

theorem C7_witness :
    (∃ p, (w7.cag, p) ∈ pivotKeys (selRows rows7) ∧ startsMu p.data = true ∧
      w7.parameter = replMu p) ∧
    replMuAux ('m' :: 'u' :: '.' :: "xy".data) = "xy".data :=
  ⟨C7_replace_all.1 mtId "fdr_bh" rows7 wt7 read_rows7 w7 (by simp [wt7, w7]),
   C7_replace_all.2 "xy".data rfl⟩

theorem sum_of_const (v : Rat) :
    ∀ l : List Rat, (∀ x ∈ l, x = v) → l.sum = (l.length : Rat) * v := by
  intro l
  induction l with
  | nil => intro _; simp
  | cons x xs ih =>
    intro hall
    simp only [List.sum_cons, List.length_cons]
    rw [hall x (List.mem_cons_self x xs),
      ih (fun y hy => hall y (List.mem_cons_of_mem x hy))]
    push_cast
    ring

theorem const_mean (v : Rat) (l : List Rat) (hne : l ≠ [])
    (hall : ∀ x ∈ l, x = v) : l.sum / (l.length : Rat) = v := by
  have hlen : (l.length : Rat) ≠ 0 :=
    Nat.cast_ne_zero.mpr (fun h => hne (List.length_eq_zero.mp h))
  rw [sum_of_const v l hall, mul_comm, mul_div_assoc, div_self hlen, mul_one]

theorem pivotValue_uniq (rows : List StatRow) (f : Nat) (p ty : String) (v : Rat)
    (huniq : ∀ r1 ∈ rows, ∀ r2 ∈ rows, r1.cag = r2.cag → r1.parameter = r2.parameter →
      r1.type = r2.type → r1.value = r2.value)
    (hmem : (⟨f, p, ty, v⟩ : StatRow) ∈ rows) :
    pivotValue rows f p ty = some v := by
  simp only [pivotValue]
  have hm : (⟨f, p, ty, v⟩ : StatRow) ∈ rows.filter
      (fun r => r.cag == f && r.parameter == p && r.type == ty) :=
    List.mem_filter.mpr ⟨hmem, by simp⟩
  have hvm : v ∈ (rows.filter
      (fun r => r.cag == f && r.parameter == p && r.type == ty)).map StatRow.value :=
    List.mem_map_of_mem StatRow.value hm
  have hne : (rows.filter
      (fun r => r.cag == f && r.parameter == p && r.type == ty)).map StatRow.value ≠ [] :=
    List.ne_nil_of_mem hvm
  rw [if_neg (by simpa [List.isEmpty_iff] using hne)]
  refine congrArg some (const_mean v _ hne ?_)
  intro x hx
  rw [List.mem_map] at hx
  obtain ⟨r, hr, hre⟩ := hx
  obtain ⟨hrr, hflt⟩ := List.mem_filter.mp hr
  simp only [Bool.and_eq_true, beq_iff_eq] at hflt
  rw [← hre]
  exact huniq r hrr ⟨f, p, ty, v⟩ hmem hflt.1.1 hflt.1.2 hflt.2

/-- Claim C9 (confirmed): under the uniqueness invariant on
`(CAG, parameter, type)`, for every `(feature, parameter)` pair present in
the input with the `mu.` prefix, the reshape produces a wide row carrying
exactly the input's `estimate`, `std_error` and `p_value` values — the
round trip reproduces the original triples. -/
theorem C9_round_trip (mt : List Rat → Rat → String → List Rat)
    (method : String) (rows : List StatRow) (wt : WideTable) (f : Nat) (p : String)
    (hok : read_corncob_results mt method rows = Except.ok wt)
    (huniq : ∀ r1 ∈ rows, ∀ r2 ∈ rows, r1.cag = r2.cag → r1.parameter = r2.parameter →
      r1.type = r2.type → r1.value = r2.value)
    (hstart : startsMu p.data = true)
    (r0 : StatRow) (hr0 : r0 ∈ rows) (hr0c : r0.cag = f) (hr0p : r0.parameter = p) :
    ∃ w ∈ wt.rows, w.cag = f ∧ w.parameter = replMu p ∧
      (∀ v, (⟨f, p, "estimate", v⟩ : StatRow) ∈ rows → w.estimate = some v) ∧
      (∀ v, (⟨f, p, "std_error", v⟩ : StatRow) ∈ rows → w.std_error = some v) ∧
      (∀ v, (⟨f, p, "p_value", v⟩ : StatRow) ∈ rows → w.p_value = some v) := by
  obtain ⟨hrows, _⟩ := read_ok_parts mt method rows wt hok
  have hsel : r0 ∈ selRows rows :=
    List.mem_filter.mpr ⟨hr0, by rw [hr0p]; exact hstart⟩
  have hkey : (f, p) ∈ pivotKeys (selRows rows) := by
    rw [pivotKeys, List.mem_dedup, List.mem_map]
    exact ⟨r0, hsel, by rw [hr0c, hr0p]⟩
  have huniq' : ∀ r1 ∈ selRows rows, ∀ r2 ∈ selRows rows, r1.cag = r2.cag →
      r1.parameter = r2.parameter → r1.type = r2.type → r1.value = r2.value :=
    fun r1 h1 r2 h2 => huniq r1 (List.mem_filter.mp h1).1 r2 (List.mem_filter.mp h2).1
  have hselmem : ∀ (ty : String) (v : Rat), (⟨f, p, ty, v⟩ : StatRow) ∈ rows →
      (⟨f, p, ty, v⟩ : StatRow) ∈ selRows rows :=
    fun ty v hv => List.mem_filter.mpr ⟨hv, hstart⟩
  refine ⟨mkWideRow (selRows rows) (f, p), ?_, rfl, rfl, ?_, ?_, ?_⟩
  · rw [hrows]
    exact List.mem_map_of_mem _ hkey
  · intro v hv
    exact pivotValue_uniq (selRows rows) f p "estimate" v huniq' (hselmem _ v hv)
  · intro v hv
    exact pivotValue_uniq (selRows rows) f p "std_error" v huniq' (hselmem _ v hv)
  · intro v hv
    exact pivotValue_uniq (selRows rows) f p "p_value" v huniq' (hselmem _ v hv)

theorem C9_witness :
    ∃ w ∈ wtEx.rows, w.cag = 1 ∧ w.parameter = replMu "mu.x" ∧
      (∀ v, (⟨1, "mu.x", "estimate", v⟩ : StatRow) ∈ rowsEx → w.estimate = some v) ∧
      (∀ v, (⟨1, "mu.x", "std_error", v⟩ : StatRow) ∈ rowsEx → w.std_error = some v) ∧
      (∀ v, (⟨1, "mu.x", "p_value", v⟩ : StatRow) ∈ rowsEx → w.p_value = some v) :=
  C9_round_trip mtId "fdr_bh" rowsEx wtEx 1 "mu.x" read_rowsEx
    (by decide) rfl ⟨1, "mu.x", "estimate", 3⟩ (by simp [rowsEx]) rfl rfl

/-! ### Partitioner lemmas -/
theorem flushLoop_flatten :
    ∀ (gs : List (List OutRow)) (bsize : Nat) (batch : List (List OutRow)),
      (((flushLoop gs bsize batch).1).map Shard.rows).flatten
        = batch.flatten ++ ((gs.filter (fun g => g.length < 50000)).flatten) := by
  intro gs
  induction gs with
  | nil =>
    intro bsize batch
    by_cases hb : 0 < batch.length
    · simp [flushLoop, hb]
    · have hbe : batch = [] := by
        simpa [List.length_eq_zero] using Nat.eq_zero_of_not_pos hb
      simp [flushLoop, hb, hbe]
  | cons g gs ih =>
    intro bsize batch
    by_cases hskip : 50000 ≤ g.length
    · have hnlt : ¬(g.length < 50000) := not_lt.mpr hskip
      simp [flushLoop, hskip, hnlt, ih]
    · have hlt : g.length < 50000 := Nat.lt_of_not_le hskip
      by_cases hflush : 10000 ≤ bsize + g.length
      · simp [flushLoop, hskip, hflush, hlt, ih]
      · simp [flushLoop, hskip, hflush, hlt, ih]

theorem flushLoop_logs :
    ∀ (gs : List (List OutRow)) (bsize : Nat) (batch : List (List OutRow)),
      (flushLoop gs bsize batch).2
        = (gs.filter (fun g => 50000 ≤ g.length)).map
            (fun g => g.head?.bind OutRow.label) := by
  intro gs
  induction gs with
  | nil => intro bsize batch; simp [flushLoop]
  | cons g gs ih =>
    intro bsize batch
    by_cases hskip : 50000 ≤ g.length
    · simp [flushLoop, hskip, ih]
    · by_cases hflush : 10000 ≤ bsize + g.length
      · simp [flushLoop, hskip, hflush, ih]
      · simp [flushLoop, hskip, hflush, ih]

theorem flushLoop_all_skipped :
    ∀ gs : List (List OutRow), (∀ g ∈ gs, 50000 ≤ g.length) →
      ∀ bsize, (flushLoop gs bsize []).1 = [] := by
  intro gs
  induction gs with
  | nil => intro _ _; simp [flushLoop]
  | cons g gs ih =>
    intro h bsize
    have hg : 50000 ≤ g.length := h g (List.mem_cons_self g gs)
    simp only [flushLoop, if_pos hg]
    exact ih (fun g' hg' => h g' (List.mem_cons_of_mem g hg')) bsize

theorem flushLoop_two_6000 (g1 g2 : List OutRow)
    (h1 : g1.length = 6000) (h2 : g2.length = 6000) :
    flushLoop [g1, g2] 0 [] = ([⟨g1 ++ g2⟩], []) := by
  simp [flushLoop, h1, h2]

theorem groupRows_cnc1_genus : groupRows cnc1 genes1 "genus" "G" = g1t := by
  have hc : ((genes1.filter fun g => geneVal g "genus" == some "G").map Gene.cag).dedup
      = [1] := by decide
  simp [groupRows, hc, cnc1, List.filter_append, List.filter_replicate,
    List.map_replicate, rowA, rowB, g1t, -List.reduceReplicate]

theorem groupRows_cnc1_egg : groupRows cnc1 genes1 "eggNOG_desc" "E" = g2t := by
  have hc : ((genes1.filter fun g => geneVal g "eggNOG_desc" == some "E").map Gene.cag).dedup
      = [2] := by decide
  simp [groupRows, hc, cnc1, List.filter_append, List.filter_replicate,
    List.map_replicate, rowA, rowB, g2t, -List.reduceReplicate]

theorem makeGroups_cnc1 :
    makeGroups cnc1 genes1 ["genus", "eggNOG_desc"] = [g1t, g2t] := by
  have h1 : colLabels genes1 "genus" = ["G"] := by decide
  have h2 : colLabels genes1 "eggNOG_desc" = ["E"] := by decide
  simp [makeGroups, h1, h2, groupRows_cnc1_genus, groupRows_cnc1_egg]

/-- Claim C1 (corrected/amended): the writer flushes a shard only after
appending an entire group, once the accumulated row count is at least
10,000; it never splits a group to start a new shard with the overflow.  In
a run whose surviving groups are exactly two groups of 6000 rows, it
therefore emits exactly one shard holding all 12,000 rows (the flush fires
while appending the second group), not two shards of 10,000 and 2,000. -/
theorem C1_two_groups (corncob : List OutRow) (genes : List Gene)
    (cols : List String) (g1 g2 : List OutRow)
    (hg : makeGroups corncob genes cols = [g1, g2])
    (h1 : g1.length = 6000) (h2 : g2.length = 6000) :
    (write_corncob_by_annot corncob genes cols).1 = [⟨g1 ++ g2⟩] := by
  simp only [write_corncob_by_annot, hg]
  rw [if_pos (by simp)]
  rw [flushLoop_two_6000 g1 g2 h1 h2]

theorem C1_witness :
    (write_corncob_by_annot cnc1 genes1 ["genus", "eggNOG_desc"]).1 = [⟨g1t ++ g2t⟩] :=
  C1_two_groups cnc1 genes1 ["genus", "eggNOG_desc"] g1t g2t makeGroups_cnc1
    (by simp [g1t, -List.reduceReplicate]) (by simp [g2t, -List.reduceReplicate])

/-- Claim C1 (counterexample): in the concrete scenario of the claim —
columns `["genus", "eggNOG_desc"]`, two surviving groups of 6000 result rows
each — the writer emits exactly one shard, of 12,000 rows, not the two
shards of 10,000 and 2,000 rows the claim predicts. -/
theorem C1_counterexample :
    ((write_corncob_by_annot cnc1 genes1 ["genus", "eggNOG_desc"]).1).length = 1 ∧
    ((write_corncob_by_annot cnc1 genes1 ["genus", "eggNOG_desc"]).1).map
      (fun sh => sh.rows.length) = [12000] := by
  have h : (write_corncob_by_annot cnc1 genes1 ["genus", "eggNOG_desc"]).1
      = [⟨g1t ++ g2t⟩] := by
    simp only [write_corncob_by_annot, makeGroups_cnc1]
    rw [if_pos (by simp)]
    rw [flushLoop_two_6000 g1t g2t (by simp [g1t, -List.reduceReplicate])
      (by simp [g2t, -List.reduceReplicate])]
  rw [h]
  simp [g1t, g2t, -List.reduceReplicate]

theorem dedup_replicate_pos {α : Type} [DecidableEq α] (a : α) :
    ∀ n : Nat, n ≠ 0 → (List.replicate n a).dedup = [a] := by
  intro n
  induction n with
  | zero => intro h; exact absurd rfl h
  | succ m ih =>
    intro _
    by_cases hm : m = 0
    · subst hm; simp
    · rw [List.replicate_succ, List.dedup_cons_of_mem (by simp [hm, Nat.pos_of_ne_zero]),
        ih hm]

theorem head?_replicate_pos {α : Type} (a : α) (n : Nat) (h : n ≠ 0) :
    (List.replicate n a).head? = some a := by
  cases n with
  | zero => exact absurd rfl h
  | succ m => simp [List.replicate_succ]

theorem groupRows_cnc2 : groupRows cnc2 genes2 "genus" "L" = bigGroup := by
  have hc : ((genes2.filter fun g => geneVal g "genus" == some "L").map Gene.cag).dedup
      = [7] := by decide
  simp [groupRows, hc, cnc2, List.filter_replicate, List.map_replicate, rowC,
    bigGroup, -List.reduceReplicate]

theorem makeGroups_cnc2 : makeGroups cnc2 genes2 ["genus"] = [bigGroup] := by
  have h1 : colLabels genes2 "genus" = ["L"] := by decide
  simp [makeGroups, h1, groupRows_cnc2]

/-- Claim C2 (corrected/amended): a `(column, value)` group is omitted from
the partitioned output exactly when its *result-row* count is at least
50,000 (the source tests `i.shape[0] >= 50000` on the tagged result rows,
not on the feature count, and the boundary case 50,000 is skipped, not
retained); the rows of every surviving group all appear in the emitted
shards, in group order, and every skipped group is logged with its label. -/
theorem C2_skip_rule (corncob : List OutRow) (genes : List Gene)
    (cols : List String) (hne : makeGroups corncob genes cols ≠ []) :
    (((write_corncob_by_annot corncob genes cols).1).map Shard.rows).flatten
      = ((makeGroups corncob genes cols).filter (fun g => g.length < 50000)).flatten ∧
    (write_corncob_by_annot corncob genes cols).2
      = ((makeGroups corncob genes cols).filter (fun g => 50000 ≤ g.length)).map
          (fun g => g.head?.bind OutRow.label) := by
  simp only [write_corncob_by_annot]
  rw [if_pos (List.length_pos.mpr hne)]
  exact ⟨by rw [flushLoop_flatten]; simp, flushLoop_logs _ _ _⟩

theorem C2_witness :
    (((write_corncob_by_annot cncS genes1 ["genus"]).1).map Shard.rows).flatten
      = ((makeGroups cncS genes1 ["genus"]).filter (fun g => g.length < 50000)).flatten ∧
    (write_corncob_by_annot cncS genes1 ["genus"]).2
      = ((makeGroups cncS genes1 ["genus"]).filter (fun g => 50000 ≤ g.length)).map
          (fun g => g.head?.bind OutRow.label) :=
  C2_skip_rule cncS genes1 ["genus"] (by decide)

/-- Claim C2 (counterexample): a group whose feature set has exactly *one*
feature (well under the claim's 50,000-feature bound, so the claim says it
is retained) but 50,000 result rows is skipped: no shard at all is emitted,
and the skip is logged.  The skip test counts result rows, with the
boundary 50,000 itself skipped. -/
theorem C2_counterexample :
    ((bigGroup.map OutRow.cag).dedup).length = 1 ∧
    (write_corncob_by_annot cnc2 genes2 ["genus"]).1 = [] ∧
    (write_corncob_by_annot cnc2 genes2 ["genus"]).2 = [some "L"] := by
  refine ⟨?_, ?_, ?_⟩
  · rw [bigGroup, List.map_replicate, dedup_replicate_pos _ 50000 (by norm_num)]
    rfl
  · simp only [write_corncob_by_annot, makeGroups_cnc2]
    rw [if_pos (by simp)]
    refine flushLoop_all_skipped [bigGroup] ?_ 0
    intro g hg
    rw [List.mem_singleton.mp hg, bigGroup, List.length_replicate]
  · simp only [write_corncob_by_annot, makeGroups_cnc2]
    rw [if_pos (by simp)]
    rw [flushLoop_logs]
    have hbl : bigGroup.length = 50000 := by rw [bigGroup, List.length_replicate]
    have hh : bigGroup.head?
        = some { rowC with label := some "L", annotCol := some "genus" } := by
      rw [bigGroup, head?_replicate_pos _ 50000 (by norm_num)]
    simp [hbl, hh, rowC]

theorem icFilter_cnc2 : icFilter cnc2 = cnc2 := by
  simp [icFilter, cnc2, List.filter_replicate, rowC, -List.reduceReplicate]

/-- Claim C3 (corrected/amended): the single dummy shard (index 0, one row
with `estimate = 1`, `p_value = 1`, `parameter = "dummy"`) is emitted
exactly when there are zero annotation columns or zero `(column, value)`
groups.  When groups exist but every one of them is skipped by the
50,000-row rule, *no* output shard is emitted at all — the dummy fallback
does not cover that case. -/
theorem C3_dummy (corncob : List OutRow) (genes : List Gene) (cols : List String) :
    ((cols = [] ∨ makeGroups (icFilter corncob) genes cols = []) →
      runPartitionStep corncob genes cols = ([⟨[dummyRow]⟩], [])) ∧
    (cols ≠ [] → makeGroups (icFilter corncob) genes cols ≠ [] →
      (∀ g ∈ makeGroups (icFilter corncob) genes cols, 50000 ≤ g.length) →
      (runPartitionStep corncob genes cols).1 = []) ∧
    dummyRow.estimate = some 1 ∧ dummyRow.p_value = some 1 ∧
    dummyRow.parameter = some "dummy" := by
  refine ⟨?_, ?_, rfl, rfl, rfl⟩
  · rintro (hc | hg)
    · simp [runPartitionStep, hc]
    · by_cases hc : cols = []
      · simp [runPartitionStep, hc]
      · have hlen : 0 < cols.length := List.length_pos.mpr hc
        simp only [runPartitionStep, if_pos hlen, write_corncob_by_annot, hg]
        simp
  · intro hc hg hall
    have hlen : 0 < cols.length := List.length_pos.mpr hc
    simp only [runPartitionStep, if_pos hlen, write_corncob_by_annot]
    rw [if_pos (List.length_pos.mpr hg)]
    exact flushLoop_all_skipped _ hall 0

theorem C3_witness :
    runPartitionStep ([] : List OutRow) [] [] = ([⟨[dummyRow]⟩], []) :=
  (C3_dummy [] [] []).1 (Or.inl rfl)

/-- Claim C3 (counterexample): one `(column, value)` group exists (so the
claim's "no group survives" premise is satisfiable without being vacuous)
and is skipped by the size rule; the claim requires exactly one dummy
shard, but the code emits *zero* output shards. -/
theorem C3_counterexample :
    (makeGroups (icFilter cnc2) genes2 ["genus"]).length = 1 ∧
    runPartitionStep cnc2 genes2 ["genus"] = ([], [some "L"]) := by
  constructor
  · rw [icFilter_cnc2, makeGroups_cnc2]
    rfl
  · have hbl : bigGroup.length = 50000 := by rw [bigGroup, List.length_replicate]
    have hh : bigGroup.head?
        = some { rowC with label := some "L", annotCol := some "genus" } := by
      rw [bigGroup, head?_replicate_pos _ 50000 (by norm_num)]
    simp only [runPartitionStep, if_pos (by norm_num : 0 < (["genus"] : List String).length),
      icFilter_cnc2, write_corncob_by_annot, makeGroups_cnc2]
    rw [if_pos (by simp)]
    have h1 : (flushLoop [bigGroup] 0 []).1 = [] := by
      refine flushLoop_all_skipped [bigGroup] ?_ 0
      intro g hg
      rw [List.mem_singleton.mp hg, hbl]
    have h2 : (flushLoop [bigGroup] 0 []).2 = [some "L"] := by
      rw [flushLoop_logs]
      simp [hbl, hh, rowC]
    rw [Prod.ext_iff]
    exact ⟨h1, h2⟩

theorem makeGroups_param (corncob : List OutRow) (genes : List Gene)
    (cols : List String) (gr : List OutRow) (hgr : gr ∈ makeGroups corncob genes cols)
    (r : OutRow) (hr : r ∈ gr) : ∃ r0 ∈ corncob, r.parameter = r0.parameter := by
  rw [makeGroups, List.mem_flatten] at hgr
  obtain ⟨lst, hlst, hgl⟩ := hgr
  rw [List.mem_map] at hlst
  obtain ⟨c, _, hfc⟩ := hlst
  rw [← hfc, List.mem_map] at hgl
  obtain ⟨lbl, _, hgrr⟩ := hgl
  rw [← hgrr] at hr
  simp only [groupRows, List.mem_map] at hr
  obtain ⟨r0, hr0, htag⟩ := hr
  exact ⟨r0, List.mem_of_mem_filter hr0, by rw [← htag]⟩

/-- Claim C8 (confirmed): the script body partitions only the
intercept-filtered wide table, so no row with parameter `"(Intercept)"`
appears in any emitted shard — the dummy row, whose parameter is
`"dummy"`, included. -/
theorem C8_no_intercept (corncob : List OutRow) (genes : List Gene)
    (cols : List String) :
    ∀ sh ∈ (runPartitionStep corncob genes cols).1, ∀ r ∈ sh.rows,
      r.parameter ≠ some "(Intercept)" := by
  intro sh hsh r hr
  by_cases hc : 0 < cols.length
  · simp only [runPartitionStep, if_pos hc, write_corncob_by_annot] at hsh
    by_cases hg : 0 < (makeGroups (icFilter corncob) genes cols).length
    · rw [if_pos hg] at hsh
      have hrj : r ∈ (((flushLoop (makeGroups (icFilter corncob) genes cols) 0 []).1).map
          Shard.rows).flatten :=
        List.mem_flatten.mpr ⟨sh.rows, List.mem_map_of_mem Shard.rows hsh, hr⟩
      rw [flushLoop_flatten] at hrj
      simp only [List.flatten_nil, List.nil_append] at hrj
      rw [List.mem_flatten] at hrj
      obtain ⟨gr, hgrf, hrg⟩ := hrj
      obtain ⟨r0, hr0, hpar⟩ :=
        makeGroups_param (icFilter corncob) genes cols gr
          (List.mem_of_mem_filter hgrf) r hrg
      rw [hpar]
      simp only [icFilter, List.mem_filter] at hr0
      simpa using hr0.2
    · rw [if_neg hg] at hsh
      rw [List.mem_singleton.mp hsh] at hr
      rw [List.mem_singleton.mp hr]
      simp [dummyRow]
  · simp only [runPartitionStep, if_neg hc] at hsh
    rw [List.mem_singleton.mp hsh] at hr
    rw [List.mem_singleton.mp hr]
    simp [dummyRow]

theorem C8_witness : dummyRow.parameter ≠ some "(Intercept)" :=
  C8_no_intercept [] [] [] ⟨[dummyRow]⟩ (by simp [runPartitionStep]) dummyRow (by simp)
